import Mathlib

/-!
Shallow embedding of the `Partition` and `ReadOnlyStorage` components of the
node-event-store repository (src/Partition.js, src/Storage/ReadOnlyStorage.js),
together with theorems settling the specification claims about them.

Modelling conventions:
* A JavaScript string document is modelled at the byte level as a `List Nat`
  (the UTF-8 bytes); `Buffer.byteLength(data)` is its list length.
* The partition file on disk is `Partition.file : List Nat`, the raw file
  content including the 9-byte header.  `fs` effects become pure state updates.
* Buffers: the in-memory write buffer is kept as the list of its valid bytes
  (the cursor is its length); the read buffer is kept as the list of bytes the
  last `fillBuffer` actually read from the file.  Bytes of an `allocUnsafe`
  buffer beyond the filled region are JavaScript garbage and are not modelled;
  slices that run past the modelled content simply come out shorter, which is
  only observable in states none of the theorems below rely on.
* Asynchrony (`process.nextTick` flush scheduling, flush callbacks,
  `syncOnFlush`) is not modelled; `flush` itself is the synchronous function.
* A JavaScript `return false` is an explicit constructor (`.notOpen`,
  `.ok none`), a `throw` is an `Except.error` with the thrown error kind.
-/

deriving instance DecidableEq for Except

namespace NES

/-! ### Bytes, decimal digits and the ten-byte length field -/

/-- Whitespace test for the regular-expression class `\s` restricted to the
ASCII range (the length fields produced by the code only ever contain the
space character 32). -/
def isWsByte (b : Nat) : Bool :=
  b = 32 || b = 9 || b = 10 || b = 11 || b = 12 || b = 13

/-- Test for the regular-expression class `[0-9]` on a byte. -/
def isDigitByte (b : Nat) : Bool :=
  48 ≤ b && b ≤ 57

/-- Decimal digits of a natural number, most significant first, computed with
explicit fuel so that the definition reduces in the kernel. -/
def digitsAux : Nat → Nat → List Nat
  | 0, _ => []
  | fuel + 1, n => if n < 10 then [n] else digitsAux fuel (n / 10) ++ [n % 10]

/-- Decimal digits of `n`, most significant first; `natDigits 0 = [0]`,
mirroring JavaScript `Number.prototype.toString`. -/
def natDigits (n : Nat) : List Nat := digitsAux (n + 1) n

/-- The `pad(str, len, char = ' ')` helper of Partition.js, on byte lists. -/
def padList (l : List Nat) (len : Nat) (c : Nat) : List Nat :=
  if len > l.length then List.replicate (len - l.length) c ++ l else l

/-- The length field `pad(dataSize.toString(), 10)` written in front of a
document: the ASCII decimal digits of `n`, left-padded with spaces to ten
bytes. -/
def lenField (n : Nat) : List Nat :=
  padList ((natDigits n).map (· + 48)) 10 32

/-- Parsing and validation of a ten-byte length field as done by `readFrom`:
`parseInt(str, 10)` combined with the guard
`!dataLength || isNaN(dataLength) || !/^\s+[0-9]+$/.test(dataLengthStr)`.
Returns the parsed length when the guard passes, `none` when `readFrom`
throws its document-size error. -/
def parseLenField (bs : List Nat) : Option Nat :=
  let ws := bs.takeWhile isWsByte
  let rest := bs.dropWhile isWsByte
  if 0 < ws.length ∧ 0 < rest.length ∧ rest.all isDigitByte then
    let n := rest.foldl (fun acc b => acc * 10 + (b - 48)) 0
    if n = 0 then none else some n
  else none

/-- Slice `[s, e)` of a byte buffer, as in `buffer.toString(_, s, e)`. -/
def bufSlice (buf : List Nat) (s e : Nat) : List Nat :=
  (buf.drop s).take (e - s)

/-! ### Partition state -/

/-- The eight magic bytes `"nesprt01"`. -/
def headerMagic : List Nat := [110, 101, 115, 112, 114, 116, 48, 49]

/-- The nine header bytes written to a fresh partition file: magic plus a
newline; `headerSize = HEADER_MAGIC.length + 1 = 9`. -/
def headerBytes : List Nat := headerMagic ++ [10]

/-- The `headerSize` constant of an open partition. -/
def headerSize : Nat := 9

/-- State of a `Partition` object plus the underlying file. -/
structure Partition where
  isOpen : Bool
  file : List Nat
  size : Nat
  writeBuffer : List Nat
  writeBufferSize : Nat
  readBufferSize : Nat
  readBufferPos : Int
  readBufferData : List Nat
  maxWriteBufferDocuments : Nat
  writeBufferDocuments : Nat
deriving DecidableEq

/-- Body of the partition file: everything after the 9-byte header. -/
def Partition.body (p : Partition) : List Nat := p.file.drop headerSize

/-- Error kinds a partition operation can throw. -/
inductive PartitionError
  | documentSizeError
  | invalidDataSize
  | corruptFile
  | invalidHeader
  | versionMismatch
deriving DecidableEq

/-- Result of `write`: either the JavaScript `false` (partition not open) or
the file position at which the document was written. -/
inductive WriteResult
  | notOpen
  | position (n : Nat)
deriving DecidableEq

/-- The `flush()` method: moves the write-buffer bytes into the file and
resets the cursor and the document count. -/
def flush (p : Partition) : Partition :=
  if p.isOpen = false then p
  else if p.writeBuffer.length = 0 then p
  else { p with file := p.file ++ p.writeBuffer, writeBuffer := [],
                writeBufferDocuments := 0 }

/-- The `fillBuffer(from)` method: reads `readBuffer.byteLength =
10 + readBufferSize` bytes of the file starting at `headerSize + from` into
the read buffer. -/
def fillBuffer (p : Partition) (pos : Nat) : Partition :=
  if p.isOpen = false then p
  else { p with
          readBufferData := (p.file.drop (headerSize + pos)).take (10 + p.readBufferSize),
          readBufferPos := (pos : Int) }

/-- The `write(data)` method.  `dataSize` becomes `data.length + 11` after the
framing; the pre-flush, the unbuffered large-document path, the buffered path
and the `maxWriteBufferDocuments` flush follow the source line by line. -/
def write (p : Partition) (data : List Nat) : WriteResult × Partition :=
  if p.isOpen = false then (.notOpen, p)
  else
    let dataToWrite := lenField data.length ++ data ++ [10]
    let dataSize := data.length + 11
    let p1 := if 0 < p.writeBuffer.length ∧ p.writeBufferSize < dataSize + p.writeBuffer.length
              then flush p else p
    let p2 :=
      if p1.writeBufferSize < dataSize then
        { p1 with file := p1.file ++ dataToWrite }
      else
        let p3 := { p1 with writeBuffer := p1.writeBuffer ++ dataToWrite,
                            writeBufferDocuments := p1.writeBufferDocuments + 1 }
        if 0 < p3.maxWriteBufferDocuments ∧ p3.maxWriteBufferDocuments ≤ p3.writeBufferDocuments
        then flush p3 else p3
    (.position p2.size, { p2 with size := p2.size + dataSize })

/-- Source-buffer selection of `readFrom`: which buffer serves the read, the
(possibly refilled) partition state, the cursor into that buffer and the
buffer's `byteLength`.  When a refill is needed, `fillBuffer` always refills
the read buffer, but the local `buffer` variable of the source keeps pointing
at the previously selected buffer, which is preserved here by keeping
`fromWrite` unchanged. -/
structure ReadCtx where
  fromWrite : Bool
  st : Partition
  bufferCursor : Nat
  bufLen : Nat
deriving DecidableEq

/-- Computes the `ReadCtx` exactly as the local-variable preamble of
`readFrom` does: write-buffer window test, cached read-buffer test, refill. -/
def mkReadCtx (p : Partition) (position : Nat) : ReadCtx :=
  let fromWrite : Bool :=
    decide (0 < p.writeBuffer.length) &&
    decide ((p.size : Int) - (p.writeBuffer.length : Int) ≤ (position : Int))
  let bufferPos : Int :=
    if fromWrite then (p.size : Int) - (p.writeBuffer.length : Int) else p.readBufferPos
  let bufLen : Nat := if fromWrite then p.writeBufferSize else 10 + p.readBufferSize
  let bufferCursor : Int := (position : Int) - bufferPos
  if bufferPos < 0 ∨ bufferCursor < 0 ∨ (bufLen : Int) < bufferCursor + 10 then
    { fromWrite := fromWrite, st := fillBuffer p position, bufferCursor := 0, bufLen := bufLen }
  else
    { fromWrite := fromWrite, st := p, bufferCursor := bufferCursor.toNat, bufLen := bufLen }

/-- Bytes of the buffer a `ReadCtx` reads from. -/
def ReadCtx.content (c : ReadCtx) : List Nat :=
  if c.fromWrite then c.st.writeBuffer else c.st.readBufferData

/-- The check `if (size && dataLength !== size)` of `readFrom`: only an
expected size that is given and truthy (non-zero) is compared. -/
def esizeMismatch (esize : Option Nat) (dataLength : Nat) : Bool :=
  match esize with
  | none => false
  | some s => decide (0 < s) && decide (dataLength ≠ s)

/-- The ten bytes `readFrom(position)` actually reads as the length field,
after buffer selection and a possible refill. -/
def observedLenField (p : Partition) (position : Nat) : List Nat :=
  let c := mkReadCtx p position
  bufSlice c.content c.bufferCursor (c.bufferCursor + 10)

/-- Body of `readFrom` after the two early `false` returns. -/
def readFromCore (p : Partition) (position : Nat) (esize : Option Nat) :
    Except PartitionError (Option (List Nat)) × Partition :=
  let c := mkReadCtx p position
  let dataPosition := c.bufferCursor + 10
  let dataLengthStr := bufSlice c.content c.bufferCursor dataPosition
  match parseLenField dataLengthStr with
  | none => (.error .documentSizeError, c.st)
  | some dataLength =>
    if esizeMismatch esize dataLength then (.error .invalidDataSize, c.st)
    else if p.size < position + dataLength + 11 then (.error .corruptFile, c.st)
    else if c.bufLen < dataLength + 10 then
      (.ok (some (bufSlice c.st.body (position + 10) (position + 10 + dataLength))), c.st)
    else if 0 < c.bufferCursor ∧ c.bufLen < dataPosition + dataLength then
      let st := fillBuffer c.st position
      let content := if c.fromWrite then st.writeBuffer else st.readBufferData
      (.ok (some (bufSlice content 10 (10 + dataLength))), st)
    else
      (.ok (some (bufSlice c.content dataPosition (dataPosition + dataLength))), c.st)

/-- The `readFrom(position, size?)` method: `false` when closed or when no
ten-byte header fits below `size`, otherwise the document bytes or a thrown
error. -/
def readFrom (p : Partition) (position : Nat) (esize : Option Nat) :
    Except PartitionError (Option (List Nat)) × Partition :=
  if p.isOpen = false then (.ok none, p)
  else if p.size ≤ position + 10 then (.ok none, p)
  else readFromCore p position esize

/-- `fs.truncateSync(file, n)`: shortens the file to `n` bytes, or extends it
with zero bytes when it is shorter. -/
def jsFileTruncate (file : List Nat) (n : Nat) : List Nat :=
  if file.length ≤ n then file ++ List.replicate (n - file.length) 0 else file.take n

/-- The `truncate(after)` method: early return when `after > size`, clamp a
negative argument to zero, flush, truncate the file to `headerSize + after`
and set `size = after`. -/
def truncate (p : Partition) (after : Int) : Partition :=
  if (p.size : Int) < after then p
  else
    let afterN : Nat := if after < 0 then 0 else after.toNat
    let p1 := flush p
    { p1 with file := jsFileTruncate p1.file (headerSize + afterN), size := afterN }

/-- The `close()` method: flush, close the file descriptor, release the
buffers.  (`size` is not cleared by the source and is kept.) -/
def closeP (p : Partition) : Partition :=
  let p1 := if p.isOpen then { flush p with isOpen := false } else p
  { p1 with readBufferData := [], readBufferPos := -1,
            writeBuffer := [], writeBufferDocuments := 0 }

/-- Models JavaScript `String.prototype.substr(start, length)` on byte lists:
a negative `start` counts from the end, a negative `length` yields the empty
string.  In particular `substr(0, -2)` is always empty — the comparison in
`open()` relies on `slice` semantics it does not have. -/
def jsSubstr (l : List Nat) (start len : Int) : List Nat :=
  let s : Nat := if start < 0 then l.length - start.natAbs else min start.toNat l.length
  let n : Nat := if len < 0 then 0 else len.toNat
  (l.drop s).take n

/-- The `open()` method: a fresh (empty) file gets the header written and
`size = 0`; an existing file has its first eight bytes compared against the
magic, with the `substr(0, -2)` version check of the source preserved
verbatim; otherwise `size = stat.size - headerSize`. -/
def openP (p : Partition) : Except PartitionError Partition :=
  if p.isOpen then .ok p
  else
    let q := { p with isOpen := true, readBufferPos := -1, readBufferData := [],
                      writeBuffer := [], writeBufferDocuments := 0 }
    if q.file.length = 0 then
      .ok { q with file := headerBytes, size := 0 }
    else if q.file.take 8 = headerMagic then
      .ok { q with size := q.file.length - headerSize }
    else if jsSubstr (q.file.take 8) 0 (-2) = jsSubstr headerMagic 0 (-2) then
      .error .versionMismatch
    else
      .error .invalidHeader

/-- A partition object as constructed but never opened: no file on disk yet. -/
def newPartition (wbSize rbSize maxDocs : Nat) : Partition :=
  { isOpen := false, file := [], size := 0, writeBuffer := [],
    writeBufferSize := wbSize, readBufferSize := rbSize,
    readBufferPos := -1, readBufferData := [],
    maxWriteBufferDocuments := maxDocs, writeBufferDocuments := 0 }

/-- The state `open()` produces on a fresh partition (empty file): header
written, `size = 0`, empty buffers. -/
def freshOpen (wbSize rbSize maxDocs : Nat) : Partition :=
  { newPartition wbSize rbSize maxDocs with isOpen := true, file := headerBytes }

/-- Folding a sequence of `write` calls, keeping only the state. -/
def writeMany (p : Partition) (ds : List (List Nat)) : Partition :=
  ds.foldl (fun q d => (write q d).2) p

/-- On-disk frame of one document: ten-byte length field, payload, newline. -/
def frameBytes (d : List Nat) : List Nat := lenField d.length ++ d ++ [10]

/-- Concatenated frames of a document sequence. -/
def framesBytes (ds : List (List Nat)) : List Nat := (ds.map frameBytes).flatten

/-- Size accounting invariant of an open partition: `size` counts the flushed
body plus the unflushed write-buffer bytes. -/
def sizeInv (p : Partition) : Prop :=
  headerSize ≤ p.file.length ∧
  p.size = (p.file.length - headerSize) + p.writeBuffer.length

/-- The read buffer holds the window of the body starting at `f`. -/
def window (body : List Nat) (f rb : Nat) : List Nat :=
  (body.drop f).take (10 + rb)

/-- A quiescent open partition over body `body`: nothing unflushed, the file
is header plus body, and the read buffer is either unfilled or a faithful
window of the body. -/
def goodRead (p : Partition) (body : List Nat) : Prop :=
  p.isOpen = true ∧ p.writeBuffer = [] ∧
  p.file = headerBytes ++ body ∧ p.size = body.length ∧
  (p.readBufferPos = -1 ∨
    ∃ f : Nat, p.readBufferPos = (f : Int) ∧
      p.readBufferData = window body f p.readBufferSize)

/-- Loop body of the `readAll()` generator: repeatedly `readFrom`, advancing
by `byteLength(data) + 11`, until `readFrom` yields a falsy value (`false` or
the empty string); a thrown error propagates.  Termination: `readFrom` leaves
`size` unchanged, only succeeds below `size - 10`, and the position strictly
grows. -/
def readAllAux (p : Partition) (position : Nat) :
    Except PartitionError (List (List Nat)) × Partition :=
  match h : readFrom p position none with
  | (.error e, p') => (.error e, p')
  | (.ok none, p') => (.ok [], p')
  | (.ok (some data), p') =>
    if data.length = 0 then (.ok [], p')
    else
      match readAllAux p' (position + data.length + 11) with
      | (.error e, p'') => (.error e, p'')
      | (.ok rest, p'') => (.ok (data :: rest), p'')
termination_by p.size - position
decreasing_by
  have hfill : ∀ q r, (fillBuffer q r).size = q.size := by
    intro q r; unfold fillBuffer; split <;> rfl
  have hctx : ∀ (pp : Partition) (pos : Nat), (mkReadCtx pp pos).st.size = pp.size := by
    intro pp pos; simp only [mkReadCtx]; split <;> split <;> simp [hfill]
  have hcore : ∀ (pp : Partition) (pos : Nat) (es : Option Nat),
      (readFromCore pp pos es).2.size = pp.size := by
    intro pp pos es
    simp only [readFromCore]
    split
    · simp [hctx]
    · split
      · simp [hctx]
      · split
        · simp [hctx]
        · split
          · simp [hctx]
          · split
            · simp [hfill, hctx]
            · simp [hctx]
  have hsz : p'.size = p.size ∧ position + 10 < p.size := by
    unfold readFrom at h
    split at h
    · simp at h
    · split at h
      · simp at h
      · next h2 =>
        have := congrArg (fun r => (r.2.size : Nat)) h
        simp only at this
        exact ⟨by rw [← this, hcore], by omega⟩
  omega

/-- The `readAll()` generator, materialised as the list of yielded documents. -/
def readAll (p : Partition) : Except PartitionError (List (List Nat)) × Partition :=
  readAllAux p 0

/-! ### ReadOnlyStorage directory watcher -/

/-- The part of a `ReadOnlyStorage` the directory watcher touches: the storage
file name (the common prefix of all files belonging to the storage) and the
ids of the partitions already opened. -/
structure ROStorage where
  storageFile : List Char
  partitions : List Nat
deriving DecidableEq

/-- Events the watcher handler can emit. -/
inductive ROEvent
  | indexCreated (filename : List Char)
  | partitionCreated (id : Nat)
deriving DecidableEq

/-- Models JavaScript `filename.substr(-k)` for `k > 0`: the last `k`
characters, or the whole string when it is shorter. -/
def jsSubstrFromEnd (l : List Char) (k : Nat) : List Char :=
  l.drop (l.length - k)

/-- The watcher event type string `'change'`. -/
def changeType : List Char := ['c', 'h', 'a', 'n', 'g', 'e']

/-- The reserved sidecar suffix `'.branch'`. -/
def branchSuffix : List Char := ['.', 'b', 'r', 'a', 'n', 'c', 'h']

/-- The index file suffix `'.index'`. -/
def indexSuffix : List Char := ['.', 'i', 'n', 'd', 'e', 'x']

/-- The `onDirectoryContentsChanged(eventType, filename)` handler of
`ReadOnlyStorage`.  `idFor` abstracts `ReadablePartition.idFor` (and the id of
the partition `createPartition` builds, which the source assumes agree); the
handler's behaviour on the claims below does not depend on it.  Returns the
emitted events and the updated storage state. -/
def onDirectoryContentsChanged (idFor : List Char → Nat) (st : ROStorage)
    (eventType filename : List Char) : List ROEvent × ROStorage :=
  if eventType = changeType then ([], st)
  else if jsSubstrFromEnd filename 7 = branchSuffix then ([], st)
  else if filename.take st.storageFile.length ≠ st.storageFile then ([], st)
  else if jsSubstrFromEnd filename 6 = indexSuffix then ([.indexCreated filename], st)
  else
    let partitionId := idFor filename
    if partitionId ∈ st.partitions then ([], st)
    else ([.partitionCreated partitionId],
          { st with partitions := st.partitions ++ [partitionId] })

/-! ### Lemmas on decimal digits and the length field -/

theorem digitsAux_spec (fuel : Nat) : ∀ n, n < fuel →
    digitsAux fuel n ≠ [] ∧ (∀ d ∈ digitsAux fuel n, d < 10) ∧
    (digitsAux fuel n).foldl (fun acc d => acc * 10 + d) 0 = n := by
  induction fuel with
  | zero => intro n h; omega
  | succ fuel ih =>
    intro n h
    by_cases h10 : n < 10
    · simp [digitsAux, h10]
    · have hdiv : n / 10 < fuel := by
        have : n / 10 < n := Nat.div_lt_self (by omega) (by omega)
        omega
      obtain ⟨hne, hlt, hval⟩ := ih (n / 10) hdiv
      refine ⟨by simp [digitsAux, h10], ?_, ?_⟩
      · intro d hd
        simp only [digitsAux, if_neg h10, List.mem_append, List.mem_singleton] at hd
        rcases hd with hd | hd
        · exact hlt d hd
        · omega
      · simp only [digitsAux, if_neg h10, List.foldl_append, hval, List.foldl_cons,
          List.foldl_nil]
        omega

theorem natDigits_ne_nil (n : Nat) : natDigits n ≠ [] :=
  (digitsAux_spec (n + 1) n (by omega)).1

theorem natDigits_lt (n : Nat) : ∀ d ∈ natDigits n, d < 10 :=
  (digitsAux_spec (n + 1) n (by omega)).2.1

theorem natDigits_val (n : Nat) :
    (natDigits n).foldl (fun acc d => acc * 10 + d) 0 = n :=
  (digitsAux_spec (n + 1) n (by omega)).2.2

theorem digitsAux_length_le (fuel : Nat) : ∀ n k, n < fuel → n < 10 ^ k → 1 ≤ k →
    (digitsAux fuel n).length ≤ k := by
  induction fuel with
  | zero => intro n k h; omega
  | succ fuel ih =>
    intro n k h hk h1
    by_cases h10 : n < 10
    · simp [digitsAux, h10]; omega
    · have hk2 : 2 ≤ k := by
        by_contra hc
        have : k = 1 := by omega
        subst this
        simp at hk
        omega
      have hdiv : n / 10 < fuel := by
        have : n / 10 < n := Nat.div_lt_self (by omega) (by omega)
        omega
      have hpow : n / 10 < 10 ^ (k - 1) := by
        rw [Nat.div_lt_iff_lt_mul (by omega)]
        have : 10 ^ (k - 1) * 10 = 10 ^ k := by
          rw [← pow_succ]
          congr 1
          omega
        omega
      have := ih (n / 10) (k - 1) hdiv hpow (by omega)
      simp only [digitsAux, if_neg h10, List.length_append, List.length_singleton]
      omega

theorem natDigits_length_le (n k : Nat) (h : n < 10 ^ k) (h1 : 1 ≤ k) :
    (natDigits n).length ≤ k :=
  digitsAux_length_le (n + 1) n k (by omega) h h1

theorem padList_length (l : List Nat) (len c : Nat) (h : l.length ≤ len) :
    (padList l len c).length = len := by
  unfold padList
  split
  · simp; omega
  · omega

theorem lenField_length (n : Nat) (h : n < 10 ^ 10) : (lenField n).length = 10 := by
  unfold lenField
  have := natDigits_length_le n 10 h (by omega)
  rw [padList_length]
  simpa using this

theorem asciiDigit_not_ws (d : Nat) (h : d < 10) : isWsByte (d + 48) = false := by
  simp only [isWsByte, Bool.or_eq_false_iff, decide_eq_false_iff_not]
  omega

theorem asciiDigit_is_digit (d : Nat) (h : d < 10) : isDigitByte (d + 48) = true := by
  simp only [isDigitByte, Bool.and_eq_true, decide_eq_true_eq]
  omega

theorem ws_split (k : Nat) (l : List Nat) (hne : l ≠ [])
    (hl : ∀ b ∈ l, isWsByte b = false) :
    (List.replicate k 32 ++ l).takeWhile isWsByte = List.replicate k 32 ∧
    (List.replicate k 32 ++ l).dropWhile isWsByte = l := by
  induction k with
  | zero =>
    obtain ⟨b, t, rfl⟩ : ∃ b t, l = b :: t := by
      cases l with
      | nil => exact absurd rfl hne
      | cons b t => exact ⟨b, t, rfl⟩
    have hb : isWsByte b = false := hl b (by simp)
    simp [List.takeWhile_cons, List.dropWhile_cons, hb]
  | succ k ih =>
    obtain ⟨h1, h2⟩ := ih
    have hws : isWsByte 32 = true := by rfl
    constructor
    · rw [List.replicate_succ, List.cons_append, List.takeWhile_cons, hws, if_pos rfl, h1]
    · rw [List.replicate_succ, List.cons_append, List.dropWhile_cons, hws, if_pos rfl, h2]

theorem foldl_ascii (l : List Nat) (hl : ∀ d ∈ l, d < 10) : ∀ a,
    (l.map (· + 48)).foldl (fun acc b => acc * 10 + (b - 48)) a =
    l.foldl (fun acc d => acc * 10 + d) a := by
  induction l with
  | nil => intro a; rfl
  | cons d t ih =>
    intro a
    have hd : d < 10 := hl d (by simp)
    have ht : ∀ x ∈ t, x < 10 := fun x hx => hl x (by simp [hx])
    simp only [List.map_cons, List.foldl_cons, Nat.add_sub_cancel]
    exact ih ht _

theorem lenField_parse (n : Nat) (h1 : 1 ≤ n) (h9 : n < 10 ^ 9) :
    parseLenField (lenField n) = some n := by
  have hlen : (natDigits n).length ≤ 9 := natDigits_length_le n 9 h9 (by omega)
  have hne : natDigits n ≠ [] := natDigits_ne_nil n
  have hlt := natDigits_lt n
  have hmaplen : ((natDigits n).map (· + 48)).length = (natDigits n).length :=
    List.length_map ..
  have hpad : lenField n =
      List.replicate (10 - (natDigits n).length) 32 ++ (natDigits n).map (· + 48) := by
    unfold lenField padList
    rw [if_pos]
    · rw [hmaplen]
    · rw [hmaplen]; omega
  have hmapne : (natDigits n).map (· + 48) ≠ [] := by
    simpa using hne
  have hmapws : ∀ b ∈ (natDigits n).map (· + 48), isWsByte b = false := by
    intro b hb
    obtain ⟨d, hd, rfl⟩ := List.mem_map.mp hb
    exact asciiDigit_not_ws d (hlt d hd)
  obtain ⟨htake, hdrop⟩ := ws_split (10 - (natDigits n).length) _ hmapne hmapws
  unfold parseLenField
  rw [hpad, htake, hdrop]
  rw [if_pos]
  · rw [foldl_ascii _ hlt, natDigits_val]
    rw [if_neg (by omega)]
  · refine ⟨?_, ?_, ?_⟩
    · simp only [List.length_replicate]
      omega
    · rw [hmaplen]
      cases hx : natDigits n with
      | nil => exact absurd hx hne
      | cons a t => simp
    · rw [List.all_eq_true]
      intro b hb
      obtain ⟨d, hd, rfl⟩ := List.mem_map.mp hb
      exact asciiDigit_is_digit d (hlt d hd)

/-! ### Lemmas on frames -/

theorem frameBytes_length (d : List Nat) (h : d.length < 10 ^ 10) :
    (frameBytes d).length = d.length + 11 := by
  simp [frameBytes, lenField_length d.length h]
  omega

theorem frameBytes_take10 (d : List Nat) (h : d.length < 10 ^ 10) :
    (frameBytes d).take 10 = lenField d.length := by
  unfold frameBytes
  rw [List.append_assoc, List.take_left' (lenField_length d.length h)]

theorem frameBytes_drop10 (d : List Nat) (h : d.length < 10 ^ 10) :
    (frameBytes d).drop 10 = d ++ [10] := by
  unfold frameBytes
  rw [List.append_assoc, List.drop_left' (lenField_length d.length h)]

theorem framesBytes_cons (d : List Nat) (ds : List (List Nat)) :
    framesBytes (d :: ds) = frameBytes d ++ framesBytes ds := by
  simp [framesBytes]

theorem framesBytes_nil : framesBytes [] = [] := rfl

/-! ### Lemmas on flush and write -/

theorem flush_not_open (p : Partition) (h : p.isOpen = false) : flush p = p := by
  simp [flush, h]

theorem flush_empty (p : Partition) (h : p.writeBuffer = []) : flush p = p := by
  unfold flush
  split
  · rfl
  · rw [if_pos (by simp [h])]

theorem flush_open_ne (p : Partition) (ho : p.isOpen = true) (hb : p.writeBuffer ≠ []) :
    flush p = { p with file := p.file ++ p.writeBuffer, writeBuffer := [],
                       writeBufferDocuments := 0 } := by
  unfold flush
  rw [if_neg (by simp [ho]), if_neg (by simpa using hb)]

theorem flush_size (q : Partition) : (flush q).size = q.size := by
  unfold flush
  split
  · rfl
  · split <;> rfl

theorem flush_isOpen (q : Partition) : (flush q).isOpen = q.isOpen := by
  unfold flush
  split
  · rfl
  · split <;> rfl

theorem flush_wbs (q : Partition) : (flush q).writeBufferSize = q.writeBufferSize := by
  unfold flush
  split
  · rfl
  · split <;> rfl

theorem flush_maxDocs (q : Partition) :
    (flush q).maxWriteBufferDocuments = q.maxWriteBufferDocuments := by
  unfold flush
  split
  · rfl
  · split <;> rfl

theorem flush_flat (q : Partition) :
    (flush q).file ++ (flush q).writeBuffer = q.file ++ q.writeBuffer := by
  unfold flush
  split
  · rfl
  · split
    · rfl
    · simp

theorem flush_file_len (q : Partition) : q.file.length ≤ (flush q).file.length := by
  unfold flush
  split
  · exact le_refl _
  · split
    · exact le_refl _
    · simp

theorem frameBytes_ne_nil (d : List Nat) : frameBytes d ≠ [] := by
  simp [frameBytes]

theorem write_spec (p : Partition) (d : List Nat) (ho : p.isOpen = true)
    (hh : headerSize ≤ p.file.length) :
    (write p d).1 = .position p.size ∧
    (write p d).2.size = p.size + (d.length + 11) ∧
    (write p d).2.file ++ (write p d).2.writeBuffer =
      p.file ++ p.writeBuffer ++ frameBytes d ∧
    (write p d).2.isOpen = true ∧
    headerSize ≤ (write p d).2.file.length := by
  have hframe : lenField d.length ++ d ++ [10] = frameBytes d := rfl
  unfold write
  rw [if_neg (by simp [ho])]
  simp only [hframe]
  by_cases hpre : 0 < p.writeBuffer.length ∧
      p.writeBufferSize < d.length + 11 + p.writeBuffer.length
  · rw [if_pos hpre]
    have hbne : p.writeBuffer ≠ [] := by
      intro hx
      rw [hx] at hpre
      simp at hpre
    rw [flush_open_ne p ho hbne]
    by_cases hdir : p.writeBufferSize < d.length + 11
    · rw [if_pos hdir]
      refine ⟨rfl, rfl, ?_, ho, by simp; omega⟩
      simp [List.append_assoc]
    · rw [if_neg hdir]
      by_cases hmax : 0 < p.maxWriteBufferDocuments ∧ p.maxWriteBufferDocuments ≤ 0 + 1
      · rw [if_pos hmax]
        refine ⟨?_, ?_, ?_, ?_, ?_⟩
        · simp only [flush_size]
        · simp only [flush_size]
        · simp only [flush_flat]
          simp [List.append_assoc]
        · simp only [flush_isOpen]
          exact ho
        · refine le_trans (by simp; omega) (flush_file_len _)
      · rw [if_neg hmax]
        refine ⟨rfl, rfl, ?_, ho, by simp; omega⟩
        simp [List.append_assoc]
  · rw [if_neg hpre]
    by_cases hdir : p.writeBufferSize < d.length + 11
    · rw [if_pos hdir]
      have hbe : p.writeBuffer = [] := by
        rcases Decidable.not_and_iff_or_not.mp hpre with hx | hx
        · simpa using hx
        · omega
      refine ⟨rfl, rfl, ?_, ho, by simp; omega⟩
      simp [hbe, List.append_assoc]
    · rw [if_neg hdir]
      by_cases hmax : 0 < p.maxWriteBufferDocuments ∧
          p.maxWriteBufferDocuments ≤ p.writeBufferDocuments + 1
      · rw [if_pos hmax]
        refine ⟨?_, ?_, ?_, ?_, ?_⟩
        · simp only [flush_size]
        · simp only [flush_size]
        · simp only [flush_flat]
          simp [List.append_assoc]
        · simp only [flush_isOpen]
          exact ho
        · refine le_trans (by simpa using hh) (flush_file_len _)
      · rw [if_neg hmax]
        refine ⟨rfl, rfl, ?_, ho, by simpa using hh⟩
        simp [List.append_assoc]

theorem write_buffered_spec (p : Partition) (d : List Nat) (ho : p.isOpen = true)
    (hm : p.maxWriteBufferDocuments = 0 ∨
      p.writeBufferDocuments + 2 ≤ p.maxWriteBufferDocuments)
    (hfit : d.length + 11 ≤ p.writeBufferSize) :
    (write p d).1 = .position p.size ∧
    (((write p d).2 = { p with
          writeBuffer := p.writeBuffer ++ frameBytes d,
          writeBufferDocuments := p.writeBufferDocuments + 1,
          size := p.size + (d.length + 11) } ∧
        p.writeBuffer.length + (d.length + 11) ≤ p.writeBufferSize) ∨
      (write p d).2 = { p with
          file := p.file ++ p.writeBuffer,
          writeBuffer := frameBytes d,
          writeBufferDocuments := 1,
          size := p.size + (d.length + 11) }) := by
  have hframe : lenField d.length ++ d ++ [10] = frameBytes d := rfl
  unfold write
  rw [if_neg (by simp [ho])]
  simp only [hframe]
  by_cases hpre : 0 < p.writeBuffer.length ∧
      p.writeBufferSize < d.length + 11 + p.writeBuffer.length
  · rw [if_pos hpre]
    have hbne : p.writeBuffer ≠ [] := by
      intro hx
      rw [hx] at hpre
      simp at hpre
    rw [flush_open_ne p ho hbne]
    rw [if_neg (by simp; omega)]
    rw [if_neg (by
      show ¬(0 < p.maxWriteBufferDocuments ∧ p.maxWriteBufferDocuments ≤ 0 + 1)
      rcases hm with hm | hm <;> omega)]
    exact ⟨rfl, Or.inr rfl⟩
  · rw [if_neg hpre]
    rw [if_neg (by simp; omega)]
    rw [if_neg (by
      show ¬(0 < p.maxWriteBufferDocuments ∧
        p.maxWriteBufferDocuments ≤ p.writeBufferDocuments + 1)
      rcases hm with hm | hm <;> omega)]
    refine ⟨rfl, Or.inl ⟨rfl, ?_⟩⟩
    rcases Decidable.not_and_iff_or_not.mp hpre with hx | hx
    · simp at hx
      omega
    · omega


/-! ### Reading a document that is still in the write buffer -/

theorem mkReadCtx_wb (q : Partition) (B d : List Nat)
    (hwb : q.writeBuffer = B ++ frameBytes d)
    (hh : headerSize ≤ q.file.length)
    (hinv : q.size = (q.file.length - headerSize) + q.writeBuffer.length)
    (hfit : B.length + (d.length + 11) ≤ q.writeBufferSize)
    (h10 : d.length < 10 ^ 10) :
    mkReadCtx q ((q.file.length - headerSize) + B.length) =
      { fromWrite := true, st := q, bufferCursor := B.length,
        bufLen := q.writeBufferSize } := by
  have hflen : (frameBytes d).length = d.length + 11 := frameBytes_length d h10
  have hwlen : q.writeBuffer.length = B.length + (d.length + 11) := by
    rw [hwb]
    simp [hflen]
  simp only [mkReadCtx]
  have hfw : (decide (0 < q.writeBuffer.length) &&
      decide ((q.size : Int) - (q.writeBuffer.length : Int) ≤
        (((q.file.length - headerSize) + B.length : Nat) : Int))) = true := by
    rw [Bool.and_eq_true, decide_eq_true_eq, decide_eq_true_eq]
    constructor
    · omega
    · omega
  rw [hfw]
  rw [if_pos rfl, if_pos rfl]
  rw [if_neg (by omega)]
  simp only [ReadCtx.mk.injEq, eq_self_iff_true, true_and, and_true]
  omega

theorem bufSlice_wb_len (B fr : List Nat) (h : fr.take 10 = lenField _n) :
    bufSlice (B ++ fr) B.length (B.length + 10) = lenField _n := by
  unfold bufSlice
  rw [List.drop_left]
  rw [Nat.add_sub_cancel_left]
  exact h

theorem readFrom_wb (q : Partition) (B d : List Nat)
    (ho : q.isOpen = true) (hwb : q.writeBuffer = B ++ frameBytes d)
    (hh : headerSize ≤ q.file.length)
    (hinv : q.size = (q.file.length - headerSize) + q.writeBuffer.length)
    (hfit : B.length + (d.length + 11) ≤ q.writeBufferSize)
    (h1 : 1 ≤ d.length) (h9 : d.length < 10 ^ 9) :
    readFrom q ((q.file.length - headerSize) + B.length) none = (.ok (some d), q) := by
  have h10 : d.length < 10 ^ 10 := lt_trans h9 (by norm_num)
  have hflen : (frameBytes d).length = d.length + 11 := frameBytes_length d h10
  have hwlen : q.writeBuffer.length = B.length + (d.length + 11) := by
    rw [hwb]
    simp [hflen]
  unfold readFrom
  rw [if_neg (by simp [ho])]
  rw [if_neg (by omega)]
  unfold readFromCore
  rw [mkReadCtx_wb q B d hwb hh hinv hfit h10]
  have hslice : bufSlice (ReadCtx.content
      { fromWrite := true, st := q, bufferCursor := B.length,
        bufLen := q.writeBufferSize }) B.length (B.length + 10) = lenField d.length := by
    show bufSlice q.writeBuffer B.length (B.length + 10) = lenField d.length
    rw [hwb]
    exact bufSlice_wb_len B (frameBytes d) (frameBytes_take10 d h10)
  simp only [hslice, lenField_parse d.length h1 h9]
  rw [if_neg (by simp [esizeMismatch])]
  rw [if_neg (by omega)]
  rw [if_neg (by omega)]
  rw [if_neg (by omega)]
  have hslice2 : bufSlice (ReadCtx.content
      { fromWrite := true, st := q, bufferCursor := B.length,
        bufLen := q.writeBufferSize }) (B.length + 10) (B.length + 10 + d.length) = d := by
    show bufSlice q.writeBuffer (B.length + 10) (B.length + 10 + d.length) = d
    rw [hwb]
    unfold bufSlice
    rw [← List.drop_drop, List.drop_left, frameBytes_drop10 d h10,
      Nat.add_sub_cancel_left, List.take_left' rfl]
  rw [hslice2]

theorem readFrom_wb_err (q : Partition) (B d : List Nat)
    (ho : q.isOpen = true) (hwb : q.writeBuffer = B ++ frameBytes d)
    (hh : headerSize ≤ q.file.length)
    (hinv : q.size = (q.file.length - headerSize) + q.writeBuffer.length)
    (hfit : B.length + (d.length + 11) ≤ q.writeBufferSize)
    (hparse : parseLenField (lenField d.length) = none)
    (h10 : d.length < 10 ^ 10) :
    readFrom q ((q.file.length - headerSize) + B.length) none =
      (.error .documentSizeError, q) := by
  have hflen : (frameBytes d).length = d.length + 11 := frameBytes_length d h10
  have hwlen : q.writeBuffer.length = B.length + (d.length + 11) := by
    rw [hwb]
    simp [hflen]
  unfold readFrom
  rw [if_neg (by simp [ho])]
  rw [if_neg (by omega)]
  unfold readFromCore
  rw [mkReadCtx_wb q B d hwb hh hinv hfit h10]
  have hslice : bufSlice (ReadCtx.content
      { fromWrite := true, st := q, bufferCursor := B.length,
        bufLen := q.writeBufferSize }) B.length (B.length + 10) = lenField d.length := by
    show bufSlice q.writeBuffer B.length (B.length + 10) = lenField d.length
    rw [hwb]
    exact bufSlice_wb_len B (frameBytes d) (frameBytes_take10 d h10)
  simp only [hslice, hparse]


/-! ### Reading frames from a quiescent partition -/

theorem fillBuffer_goodRead (p : Partition) (body : List Nat) (q : Nat)
    (hg : goodRead p body) :
    goodRead (fillBuffer p q) body ∧
    (fillBuffer p q).readBufferData = window body q p.readBufferSize ∧
    (fillBuffer p q).readBufferSize = p.readBufferSize ∧
    (fillBuffer p q).size = p.size ∧ (fillBuffer p q).writeBuffer = p.writeBuffer ∧
    (fillBuffer p q).file = p.file := by
  obtain ⟨ho, hwb, hfile, hsize, _⟩ := hg
  have hdata : (p.file.drop (headerSize + q)).take (10 + p.readBufferSize) =
      window body q p.readBufferSize := by
    rw [hfile, show (headerSize + q) = headerBytes.length + q from rfl, List.drop_append]
    rfl
  unfold fillBuffer
  rw [if_neg (by simp [ho])]
  exact ⟨⟨ho, hwb, hfile, hsize, Or.inr ⟨q, rfl, hdata⟩⟩, hdata, rfl, rfl, rfl, rfl⟩

theorem mkReadCtx_refill (p : Partition) (q : Nat)
    (hwb : p.writeBuffer = []) (hpos : p.readBufferPos = -1) :
    mkReadCtx p q = { fromWrite := false, st := fillBuffer p q, bufferCursor := 0,
                      bufLen := 10 + p.readBufferSize } := by
  simp only [mkReadCtx, hwb, hpos]
  norm_num

theorem mkReadCtx_cached (p : Partition) (q f : Nat)
    (hwb : p.writeBuffer = []) (hpos : p.readBufferPos = (f : Int))
    (hfq : f ≤ q) (hcov : q - f + 10 ≤ 10 + p.readBufferSize) :
    mkReadCtx p q = { fromWrite := false, st := p, bufferCursor := q - f,
                      bufLen := 10 + p.readBufferSize } := by
  simp only [mkReadCtx, hwb, hpos, List.length_nil]
  norm_num
  intros
  omega

theorem mkReadCtx_cached_out (p : Partition) (q f : Nat)
    (hwb : p.writeBuffer = []) (hpos : p.readBufferPos = (f : Int))
    (hout : ¬(f ≤ q ∧ q - f + 10 ≤ 10 + p.readBufferSize)) :
    mkReadCtx p q = { fromWrite := false, st := fillBuffer p q, bufferCursor := 0,
                      bufLen := 10 + p.readBufferSize } := by
  simp only [mkReadCtx, hwb, hpos, List.length_nil]
  norm_num
  intros
  omega

theorem frame_at_len (body d rest : List Nat) (q : Nat)
    (hq : body.drop q = frameBytes d ++ rest) (h10 : d.length < 10 ^ 10) :
    q + (d.length + 11) ≤ body.length := by
  have hle : q ≤ body.length := by
    by_contra hc
    have hnil : body.drop q = [] := List.drop_eq_nil_of_le (by omega)
    rw [hq] at hnil
    exact frameBytes_ne_nil d (List.append_eq_nil.mp hnil).1
  have hld : (body.drop q).length = body.length - q := List.length_drop ..
  rw [hq] at hld
  simp only [List.length_append, frameBytes_length d h10] at hld
  omega

theorem frame_take10 (body d rest : List Nat) (q : Nat)
    (hq : body.drop q = frameBytes d ++ rest) (h10 : d.length < 10 ^ 10) :
    (body.drop q).take 10 = lenField d.length := by
  rw [hq, List.take_append_of_le_length (by rw [frameBytes_length d h10]; omega),
    frameBytes_take10 d h10]

theorem frame_data (body d rest : List Nat) (q : Nat)
    (hq : body.drop q = frameBytes d ++ rest) (h10 : d.length < 10 ^ 10) :
    (body.drop (q + 10)).take d.length = d := by
  have hdd : body.drop (q + 10) = (body.drop q).drop 10 := by
    rw [List.drop_drop]
  rw [hdd, hq, List.drop_append_of_le_length (by rw [frameBytes_length d h10]; omega),
    frameBytes_drop10 d h10, List.append_assoc, List.take_left' rfl]

theorem window_slice10 (body : List Nat) (f q rb : Nat) (hfq : f ≤ q)
    (hcov : q - f + 10 ≤ 10 + rb) :
    bufSlice (window body f rb) (q - f) (q - f + 10) = (body.drop q).take 10 := by
  unfold bufSlice window
  rw [Nat.add_sub_cancel_left, List.drop_take, List.drop_drop, List.take_take]
  congr 1
  · omega
  · congr 1
    omega

theorem window_sliceData (body : List Nat) (f q rb L : Nat) (hfq : f ≤ q)
    (hcov : q - f + 10 + L ≤ 10 + rb) :
    bufSlice (window body f rb) (q - f + 10) (q - f + 10 + L) =
      (body.drop (q + 10)).take L := by
  unfold bufSlice window
  rw [Nat.add_sub_cancel_left, List.drop_take, List.drop_drop, List.take_take]
  congr 1
  · omega
  · congr 1
    omega

theorem goodRead_body_eq (st' : Partition) (body : List Nat)
    (hg : goodRead st' body) : st'.body = body := by
  obtain ⟨_, _, hfile, _, _⟩ := hg
  unfold Partition.body
  rw [hfile, show headerSize = headerBytes.length from rfl]
  exact List.drop_left ..

theorem readFromCore_window (p st' : Partition) (body d rest : List Nat) (q g : Nat)
    (hgp : goodRead p body) (hg' : goodRead st' body)
    (hrb : st'.readBufferSize = p.readBufferSize)
    (hwin : st'.readBufferData = window body g st'.readBufferSize)
    (hgq : g ≤ q) (hcov : q - g + 10 ≤ 10 + p.readBufferSize)
    (hctx : mkReadCtx p q = { fromWrite := false, st := st', bufferCursor := q - g,
                              bufLen := 10 + p.readBufferSize })
    (hq : body.drop q = frameBytes d ++ rest)
    (h1 : 1 ≤ d.length) (h9 : d.length < 10 ^ 9) :
    ∃ p', readFromCore p q none = (.ok (some d), p') ∧ goodRead p' body ∧
      p'.readBufferSize = p.readBufferSize ∧ p'.size = p.size := by
  have h10 : d.length < 10 ^ 10 := lt_trans h9 (by norm_num)
  have hlen : q + (d.length + 11) ≤ body.length := frame_at_len body d rest q hq h10
  have hsize : p.size = body.length := hgp.2.2.2.1
  unfold readFromCore
  rw [hctx]
  have hcontent : ReadCtx.content
      { fromWrite := false, st := st', bufferCursor := q - g,
        bufLen := 10 + p.readBufferSize } = st'.readBufferData := rfl
  have hslice : bufSlice st'.readBufferData (q - g) (q - g + 10) =
      lenField d.length := by
    rw [hwin, hrb, window_slice10 body g q p.readBufferSize hgq hcov,
      frame_take10 body d rest q hq h10]
  simp only [hcontent, hslice, lenField_parse d.length h1 h9]
  rw [if_neg (by simp [esizeMismatch])]
  rw [if_neg (by omega)]
  by_cases hbig : 10 + p.readBufferSize < d.length + 10
  · rw [if_pos hbig]
    refine ⟨st', ?_, hg', hrb, by rw [hg'.2.2.2.1, hsize]⟩
    rw [goodRead_body_eq st' body hg']
    have : bufSlice body (q + 10) (q + 10 + d.length) = d := by
      unfold bufSlice
      rw [Nat.add_sub_cancel_left]
      exact frame_data body d rest q hq h10
    rw [this]
  · rw [if_neg hbig]
    by_cases hsec : 0 < q - g ∧ 10 + p.readBufferSize < q - g + 10 + d.length
    · rw [if_pos hsec]
      obtain ⟨hgfill, hdfill, hrbfill, hsfill, _, _⟩ :=
        fillBuffer_goodRead st' body q hg'
      refine ⟨fillBuffer st' q, ?_, hgfill, by rw [hrbfill, hrb],
        by rw [hsfill, hg'.2.2.2.1, hsize]⟩
      have hslice2 : bufSlice (fillBuffer st' q).readBufferData 10 (10 + d.length) = d := by
        rw [hdfill, hrb]
        have h0 : (10 : Nat) = q - q + 10 := by omega
        rw [h0]
        rw [window_sliceData body q q p.readBufferSize d.length (le_refl q) (by omega)]
        exact frame_data body d rest q hq h10
      simp [hslice2]
    · rw [if_neg hsec]
      refine ⟨st', ?_, hg', hrb, by rw [hg'.2.2.2.1, hsize]⟩
      have hcov2 : q - g + 10 + d.length ≤ 10 + p.readBufferSize := by
        rcases Decidable.not_and_iff_or_not.mp hsec with hx | hx
        · have hgq0 : q - g = 0 := by omega
          omega
        · omega
      have hslice2 : bufSlice st'.readBufferData (q - g + 10) (q - g + 10 + d.length) = d := by
        rw [hwin, hrb, window_sliceData body g q p.readBufferSize d.length hgq hcov2,
          frame_data body d rest q hq h10]
      simp [hslice2]

theorem readFrom_frame (p : Partition) (body d rest : List Nat) (q : Nat)
    (hg : goodRead p body) (hq : body.drop q = frameBytes d ++ rest)
    (h1 : 1 ≤ d.length) (h9 : d.length < 10 ^ 9) :
    ∃ p', readFrom p q none = (.ok (some d), p') ∧ goodRead p' body ∧
      p'.readBufferSize = p.readBufferSize ∧ p'.size = p.size := by
  have h10 : d.length < 10 ^ 10 := lt_trans h9 (by norm_num)
  have hlen : q + (d.length + 11) ≤ body.length := frame_at_len body d rest q hq h10
  obtain ⟨ho, hwb, hfile, hsize, hbuf⟩ := hg
  have hg2 : goodRead p body := ⟨ho, hwb, hfile, hsize, hbuf⟩
  unfold readFrom
  rw [if_neg (by simp [ho])]
  rw [if_neg (by omega)]
  obtain ⟨hgfill, hdfill, hrbfill, hsfill, _, _⟩ := fillBuffer_goodRead p body q hg2
  rcases hbuf with hpos | ⟨f, hpos, hdata⟩
  · exact readFromCore_window p (fillBuffer p q) body d rest q q hg2 hgfill hrbfill
      (by rw [hdfill, hrbfill]) (le_refl q) (by omega)
      (by rw [mkReadCtx_refill p q hwb hpos]; congr 1; omega) hq h1 h9
  · by_cases hin : f ≤ q ∧ q - f + 10 ≤ 10 + p.readBufferSize
    · exact readFromCore_window p p body d rest q f hg2 hg2 rfl hdata hin.1 hin.2
        (mkReadCtx_cached p q f hwb hpos hin.1 hin.2) hq h1 h9
    · exact readFromCore_window p (fillBuffer p q) body d rest q q hg2 hgfill hrbfill
        (by rw [hdfill, hrbfill]) (le_refl q) (by omega)
        (by rw [mkReadCtx_cached_out p q f hwb hpos hin]; congr 1; omega) hq h1 h9

theorem readFrom_end (p : Partition) (body : List Nat) (q : Nat)
    (hg : goodRead p body) (hend : body.length ≤ q + 10) :
    readFrom p q none = (.ok none, p) := by
  unfold readFrom
  rw [if_neg (by simp [hg.1])]
  rw [if_pos (by rw [hg.2.2.2.1]; omega)]

theorem readFromCore_window_err (p st' : Partition) (body d rest : List Nat) (q g : Nat)
    (hrb : st'.readBufferSize = p.readBufferSize)
    (hwin : st'.readBufferData = window body g st'.readBufferSize)
    (hgq : g ≤ q) (hcov : q - g + 10 ≤ 10 + p.readBufferSize)
    (hctx : mkReadCtx p q = { fromWrite := false, st := st', bufferCursor := q - g,
                              bufLen := 10 + p.readBufferSize })
    (hq : body.drop q = frameBytes d ++ rest)
    (hparse : parseLenField (lenField d.length) = none) (h10 : d.length < 10 ^ 10) :
    readFromCore p q none = (.error .documentSizeError, st') := by
  unfold readFromCore
  rw [hctx]
  have hcontent : ReadCtx.content
      { fromWrite := false, st := st', bufferCursor := q - g,
        bufLen := 10 + p.readBufferSize } = st'.readBufferData := rfl
  have hslice : bufSlice st'.readBufferData (q - g) (q - g + 10) =
      lenField d.length := by
    rw [hwin, hrb, window_slice10 body g q p.readBufferSize hgq hcov,
      frame_take10 body d rest q hq h10]
  simp only [hcontent, hslice, hparse]

theorem readFrom_frame_err (p : Partition) (body d rest : List Nat) (q : Nat)
    (hg : goodRead p body) (hq : body.drop q = frameBytes d ++ rest)
    (hparse : parseLenField (lenField d.length) = none) (h10 : d.length < 10 ^ 10) :
    ∃ p', readFrom p q none = (.error .documentSizeError, p') := by
  have hlen : q + (d.length + 11) ≤ body.length := frame_at_len body d rest q hq h10
  obtain ⟨ho, hwb, hfile, hsize, hbuf⟩ := hg
  have hg2 : goodRead p body := ⟨ho, hwb, hfile, hsize, hbuf⟩
  unfold readFrom
  rw [if_neg (by simp [ho])]
  rw [if_neg (by omega)]
  obtain ⟨hgfill, hdfill, hrbfill, _, _, _⟩ := fillBuffer_goodRead p body q hg2
  rcases hbuf with hpos | ⟨f, hpos, hdata⟩
  · exact ⟨fillBuffer p q, readFromCore_window_err p (fillBuffer p q) body d rest q q
      hrbfill (by rw [hdfill, hrbfill]) (le_refl q) (by omega)
      (by rw [mkReadCtx_refill p q hwb hpos]; congr 1; omega) hq hparse h10⟩
  · by_cases hin : f ≤ q ∧ q - f + 10 ≤ 10 + p.readBufferSize
    · exact ⟨p, readFromCore_window_err p p body d rest q f rfl hdata hin.1 hin.2
        (mkReadCtx_cached p q f hwb hpos hin.1 hin.2) hq hparse h10⟩
    · exact ⟨fillBuffer p q, readFromCore_window_err p (fillBuffer p q) body d rest q q
        hrbfill (by rw [hdfill, hrbfill]) (le_refl q) (by omega)
        (by rw [mkReadCtx_cached_out p q f hwb hpos hin]; congr 1; omega) hq hparse h10⟩


/-! ### The write-close-open-readAll round trip -/

theorem flush_wb_empty (q : Partition) (ho : q.isOpen = true) :
    (flush q).writeBuffer = [] := by
  unfold flush
  rw [if_neg (by simp [ho])]
  split
  · next hl => exact List.length_eq_zero.mp hl
  · rfl

theorem flush_rbs (q : Partition) : (flush q).readBufferSize = q.readBufferSize := by
  unfold flush
  split
  · rfl
  · split <;> rfl

theorem closeP_spec (p : Partition) (ho : p.isOpen = true) :
    (closeP p).file = p.file ++ p.writeBuffer ∧ (closeP p).isOpen = false ∧
    (closeP p).writeBuffer = [] ∧ (closeP p).readBufferPos = -1 ∧
    (closeP p).readBufferData = [] ∧
    (closeP p).readBufferSize = p.readBufferSize ∧
    (closeP p).writeBufferSize = p.writeBufferSize := by
  have hfile : (flush p).file = p.file ++ p.writeBuffer := by
    have h1 := flush_flat p
    rw [flush_wb_empty p ho] at h1
    simpa using h1
  unfold closeP
  rw [if_pos ho]
  exact ⟨hfile, rfl, rfl, rfl, rfl, flush_rbs p, flush_wbs p⟩

theorem openP_reopen (p : Partition) (body : List Nat)
    (hclosed : p.isOpen = false) (hfile : p.file = headerBytes ++ body) :
    openP p = .ok { p with isOpen := true, readBufferPos := -1, readBufferData := [],
                           writeBuffer := [], writeBufferDocuments := 0,
                           size := p.file.length - headerSize } := by
  have htake : p.file.take 8 = headerMagic := by
    rw [hfile]
    rfl
  unfold openP
  rw [if_neg (by simp [hclosed])]
  rw [if_neg (by rw [hfile]; simp [headerBytes, headerMagic])]
  rw [if_pos htake]

theorem readAllAux_frames (ds : List (List Nat)) : ∀ (p : Partition) (body : List Nat)
    (q : Nat), goodRead p body → body.drop q = framesBytes ds →
    (∀ d ∈ ds, 1 ≤ d.length ∧ d.length < 10 ^ 9) →
    (readAllAux p q).1 = .ok ds := by
  induction ds with
  | nil =>
    intro p body q hg hq _
    have hend : body.length ≤ q := by
      have hld : (body.drop q).length = body.length - q := List.length_drop ..
      rw [hq, framesBytes_nil] at hld
      simp at hld
      omega
    have hread := readFrom_end p body q hg (by omega)
    rw [readAllAux]
    split
    · next e p2 heq =>
      rw [hread] at heq
      simp at heq
    · next p2 heq => rfl
    · next data p2 heq =>
      rw [hread] at heq
      simp at heq
  | cons d ds ih =>
    intro p body q hg hq hds
    obtain ⟨h1, h9⟩ := hds d (by simp)
    have h10 : d.length < 10 ^ 10 := lt_trans h9 (by norm_num)
    have hq' : body.drop q = frameBytes d ++ framesBytes ds := by
      rw [hq, framesBytes_cons]
    obtain ⟨p', hread, hg', _, _⟩ := readFrom_frame p body d (framesBytes ds) q hg hq' h1 h9
    have hnext : body.drop (q + d.length + 11) = framesBytes ds := by
      have hdd : body.drop (q + d.length + 11) = (body.drop q).drop (d.length + 11) := by
        rw [List.drop_drop]
        congr 1
      rw [hdd, hq', show d.length + 11 = (frameBytes d).length from
        (frameBytes_length d h10).symm, List.drop_left]
    have hrec := ih p' body (q + d.length + 11) hg' hnext
      (fun x hx => hds x (by simp [hx]))
    rw [readAllAux]
    split
    · next e p2 heq =>
      rw [hread] at heq
      simp at heq
    · next p2 heq =>
      rw [hread] at heq
      simp at heq
    · next data p2 heq =>
      rw [hread] at heq
      injection heq with hA hB
      injection hA with hC
      injection hC with hD
      subst hD
      subst hB
      rw [if_neg (by omega)]
      rcases hres : readAllAux p' (q + d.length + 11) with ⟨r, pF⟩
      rw [hres] at hrec
      simp only at hrec
      subst hrec
      rfl

theorem writeMany_inv (ds : List (List Nat)) : ∀ p : Partition, p.isOpen = true →
    headerSize ≤ p.file.length →
    (writeMany p ds).file ++ (writeMany p ds).writeBuffer =
      p.file ++ p.writeBuffer ++ framesBytes ds ∧
    (writeMany p ds).isOpen = true := by
  induction ds with
  | nil =>
    intro p ho _
    exact ⟨by simp [writeMany, framesBytes_nil], ho⟩
  | cons d ds ih =>
    intro p ho hh
    have hws := write_spec p d ho hh
    have hnext := ih (write p d).2 hws.2.2.2.1 hws.2.2.2.2
    have hfold : writeMany p (d :: ds) = writeMany (write p d).2 ds := rfl
    constructor
    · rw [hfold, hnext.1, hws.2.2.1, framesBytes_cons]
      simp [List.append_assoc]
    · rw [hfold]
      exact hnext.2


/-! ### Auxiliary lemmas for truncate and readAll errors -/

theorem jsFileTruncate_length (f : List Nat) (n : Nat) :
    (jsFileTruncate f n).length = n := by
  unfold jsFileTruncate
  split
  · next h =>
    simp
    omega
  · next h =>
    simp
    omega

theorem jsFileTruncate_idem (f : List Nat) (n : Nat) :
    jsFileTruncate (jsFileTruncate f n) n = jsFileTruncate f n := by
  conv_lhs => rw [jsFileTruncate]
  rw [if_pos (le_of_eq (jsFileTruncate_length f n))]
  rw [jsFileTruncate_length f n]
  simp

theorem jsFileTruncate_exact (f : List Nat) (n : Nat) (h : f.length = n) :
    jsFileTruncate f n = f := by
  unfold jsFileTruncate
  rw [if_pos (le_of_eq h), h]
  simp

theorem truncate_else (q : Partition) (after : Int) (hq : ¬((q.size : Int) < after)) :
    truncate q after = { flush q with
      file := jsFileTruncate (flush q).file
        (headerSize + (if after < 0 then 0 else after.toNat)),
      size := (if after < 0 then 0 else after.toNat) } := by
  unfold truncate
  rw [if_neg hq]

theorem readAllAux_error (p : Partition) (q : Nat) (e : PartitionError) (p2 : Partition)
    (h : readFrom p q none = (.error e, p2)) : (readAllAux p q).1 = .error e := by
  rw [readAllAux]
  split
  · next e2 p3 heq =>
    rw [h] at heq
    injection heq with hA hB
    injection hA with hC
    subst hC
    rfl
  · next p3 heq =>
    rw [h] at heq
    simp at heq
  · next data p3 heq =>
    rw [h] at heq
    simp at heq

theorem jsSubstrFromEnd_eq_iff (l s : List Char) (k : Nat) (hk : s.length = k) :
    jsSubstrFromEnd l k = s ↔ s <:+ l := by
  unfold jsSubstrFromEnd
  constructor
  · intro h
    exact ⟨l.take (l.length - k), by rw [← h]; exact List.take_append_drop ..⟩
  · rintro ⟨t, rfl⟩
    rw [List.length_append, hk, Nat.add_sub_cancel, List.drop_left]

/-! ### Claim theorems -/

/-- C2: `open()` on an existing non-empty partition file whose first eight
bytes differ from the magic `nesprt01` — here a file of nine `X` bytes, whose
prefix excluding the version byte also differs — throws the version-mismatch
error rather than the invalid-header error the specification prescribes: the
source compares `substr(0, -2)` of both strings, and a JavaScript `substr`
with a negative length always yields the empty string, so the version check
matches on every magic mismatch and the invalid-header branch is dead code. -/
theorem open_bad_magic_reports_version_mismatch :
    openP { newPartition 16384 4096 0 with file := List.replicate 9 88 } =
      .error .versionMismatch := by decide

/-- C3: on an open partition, `write(data)` returns the pre-write `size`,
increments `size` by `byteLength(data) + 11`, and appends to the logical byte
stream (file plus write buffer) exactly the frame consisting of the ten-byte
space-padded ASCII decimal length, the payload bytes and a trailing
newline. -/
theorem write_returns_presize_and_appends_frame (p : Partition) (d : List Nat)
    (ho : p.isOpen = true) (hh : headerSize ≤ p.file.length)
    (hten : d.length < 10 ^ 10) :
    (write p d).1 = .position p.size ∧
    (write p d).2.size = p.size + (d.length + 11) ∧
    (write p d).2.file ++ (write p d).2.writeBuffer =
      p.file ++ p.writeBuffer ++ (lenField d.length ++ d ++ [10]) ∧
    (lenField d.length).length = 10 := by
  obtain ⟨h1, h2, h3, _, _⟩ := write_spec p d ho hh
  exact ⟨h1, h2, h3, lenField_length d.length hten⟩

/-- Witness for C3: writing the two-byte document `ab` to a fresh partition. -/
theorem write_returns_presize_and_appends_frame_witness :
    (write (freshOpen 16384 4096 0) [97, 98]).1 =
      .position (freshOpen 16384 4096 0).size ∧
    (write (freshOpen 16384 4096 0) [97, 98]).2.size =
      (freshOpen 16384 4096 0).size + ([97, 98].length + 11) ∧
    (write (freshOpen 16384 4096 0) [97, 98]).2.file ++
      (write (freshOpen 16384 4096 0) [97, 98]).2.writeBuffer =
      (freshOpen 16384 4096 0).file ++ (freshOpen 16384 4096 0).writeBuffer ++
        (lenField [97, 98].length ++ [97, 98] ++ [10]) ∧
    (lenField [97, 98].length).length = 10 :=
  write_returns_presize_and_appends_frame (freshOpen 16384 4096 0) [97, 98]
    (by decide) (by decide) (by decide)

/-- C5: on an open partition, `readFrom(position)` with `position + 10 ≥ size`
returns `false` (no ten-byte header fits) and does not throw, for any optional
expected size. -/
theorem readFrom_end_of_data_returns_false (p : Partition) (position : Nat)
    (esize : Option Nat) (ho : p.isOpen = true) (hpos : p.size ≤ position + 10) :
    readFrom p position esize = (.ok none, p) := by
  unfold readFrom
  rw [if_neg (by simp [ho]), if_pos hpos]

/-- Witness for C5: a fresh partition of size zero read at position zero. -/
theorem readFrom_end_of_data_returns_false_witness :
    readFrom (freshOpen 16384 4096 0) 0 none = (.ok none, freshOpen 16384 4096 0) :=
  readFrom_end_of_data_returns_false (freshOpen 16384 4096 0) 0 none
    (by decide) (by decide)

/-- C6: on an open partition, when the ten bytes `readFrom` reads at
`position` parse to a valid positive document length `L` (right-space-padded
decimal, as the validation demands) but `position + L + 11 > size`, `readFrom`
throws `CorruptFileError` — the torn-write detection. -/
theorem readFrom_torn_write_throws_corrupt_file (p : Partition) (position L : Nat)
    (ho : p.isOpen = true) (hpos : position + 10 < p.size)
    (hparse : parseLenField (observedLenField p position) = some L)
    (htorn : p.size < position + L + 11) :
    (readFrom p position none).1 = .error .corruptFile := by
  unfold readFrom
  rw [if_neg (by simp [ho]), if_neg (by omega)]
  have hobs : parseLenField (bufSlice (mkReadCtx p position).content
      (mkReadCtx p position).bufferCursor ((mkReadCtx p position).bufferCursor + 10)) =
      some L := hparse
  simp only [readFromCore, hobs]
  rw [if_neg (by simp [esizeMismatch])]
  rw [if_pos htorn]

/-- An open partition whose file body is a ten-byte length field announcing
five payload bytes followed by a single byte: a torn write on disk. -/
def tornPartition : Partition :=
  { newPartition 16384 4096 0 with
      isOpen := true
      file := headerBytes ++ lenField 5 ++ [97]
      size := 11 }

/-- Witness for C6: reading the torn partition at position zero. -/
theorem readFrom_torn_write_throws_corrupt_file_witness :
    0 + 10 < tornPartition.size ∧
    parseLenField (observedLenField tornPartition 0) = some 5 ∧
    (readFrom tornPartition 0 none).1 = .error .corruptFile :=
  ⟨by decide, by decide,
    readFrom_torn_write_throws_corrupt_file tornPartition 0 5 (by decide) (by decide)
      (by decide) (by decide)⟩

/-- Counterexample to C8 as stated: `write` on a partition that was never
opened returns `false` (modelled by the `.notOpen` result of the throw-free
`write`); it does not throw an `InvalidState` error. -/
theorem write_closed_partition_returns_false :
    write (newPartition 16384 4096 0) [97] = (.notOpen, newPartition 16384 4096 0) := by
  decide

/-- C8 (amended): on a partition that is not open, the write path returns
`false` (it does not throw), and the read path `readFrom` likewise returns
`false`. -/
theorem closed_partition_write_and_read_return_false (p : Partition)
    (d : List Nat) (position : Nat) (esize : Option Nat) (hc : p.isOpen = false) :
    write p d = (.notOpen, p) ∧ readFrom p position esize = (.ok none, p) := by
  constructor
  · unfold write
    rw [if_pos hc]
  · unfold readFrom
    rw [if_pos hc]

/-- Witness for the amended C8: a never-opened partition. -/
theorem closed_partition_write_and_read_return_false_witness :
    write (newPartition 16384 4096 0) [97] = (.notOpen, newPartition 16384 4096 0) ∧
    readFrom (newPartition 16384 4096 0) 0 none =
      (.ok none, newPartition 16384 4096 0) :=
  closed_partition_write_and_read_return_false (newPartition 16384 4096 0) [97] 0
    none (by decide)


/-- Counterexample to C7 as stated: after buffering one write, `truncate` at
`after = size` is not a no-op — the early return fires only for `after > size`,
so `truncate(size)` flushes the write buffer and the on-disk file content
changes. -/
theorem truncate_at_size_is_not_noop :
    ((write (freshOpen 16384 4096 0) [97, 98]).2.size : Int) ≤ 13 ∧
    truncate (write (freshOpen 16384 4096 0) [97, 98]).2 13 ≠
      (write (freshOpen 16384 4096 0) [97, 98]).2 := by
  decide

/-- C7 (amended): `truncate(after)` with `after > size` (strictly) is a no-op;
`truncate` is idempotent; a negative argument truncates the file to
`headerSize + max(0, after) = headerSize` and sets `size = 0`; and at the
boundary `after = size` the only effect is the flush of the write buffer. -/
theorem truncate_props (p : Partition) (after : Int) :
    ((p.size : Int) < after → truncate p after = p) ∧
    truncate (truncate p after) after = truncate p after ∧
    (after < 0 → (truncate p after).size = 0 ∧
      (truncate p after).file = jsFileTruncate (flush p).file headerSize) ∧
    (p.isOpen = true → headerSize ≤ p.file.length →
      p.size = (p.file.length - headerSize) + p.writeBuffer.length →
      truncate p (p.size : Int) = flush p) := by
  have truncate_size : ∀ (q : Partition) (a : Int), ¬((q.size : Int) < a) →
      (truncate q a).size = (if a < 0 then 0 else a.toNat) := by
    intro q a hq
    rw [truncate_else q a hq]
  have truncate_file : ∀ (q : Partition) (a : Int), ¬((q.size : Int) < a) →
      (truncate q a).file =
        jsFileTruncate (flush q).file (headerSize + (if a < 0 then 0 else a.toNat)) := by
    intro q a hq
    rw [truncate_else q a hq]
  have truncate_wb : ∀ (q : Partition) (a : Int), ¬((q.size : Int) < a) →
      (truncate q a).writeBuffer = (flush q).writeBuffer := by
    intro q a hq
    rw [truncate_else q a hq]
  have truncate_open : ∀ (q : Partition) (a : Int), ¬((q.size : Int) < a) →
      (truncate q a).isOpen = q.isOpen := by
    intro q a hq
    rw [truncate_else q a hq]
    exact flush_isOpen q
  refine ⟨?_, ?_, ?_, ?_⟩
  · intro h
    unfold truncate
    rw [if_pos h]
  · by_cases h : (p.size : Int) < after
    · have e1 : truncate p after = p := by
        unfold truncate
        rw [if_pos h]
      rw [e1]
      exact e1
    · have hq_size := truncate_size p after h
      have hq_wb := truncate_wb p after h
      have hq_file := truncate_file p after h
      have hq_open := truncate_open p after h
      have hc2 : ¬(((truncate p after).size : Int) < after) := by
        rw [hq_size]
        split <;> omega
      have hfq : flush (truncate p after) = truncate p after := by
        by_cases hopen : p.isOpen = true
        · refine flush_empty _ ?_
          rw [hq_wb]
          exact flush_wb_empty p hopen
        · refine flush_not_open _ ?_
          rw [hq_open]
          simpa using hopen
      rw [truncate_else (truncate p after) after hc2, hfq, hq_file, jsFileTruncate_idem,
        ← hq_file, ← hq_size]
  · intro h
    refine ⟨?_, ?_⟩
    · rw [truncate_size p after (by omega), if_pos h]
    · rw [truncate_file p after (by omega), if_pos h]
      norm_num
  · intro hopen hh hinv
    rw [truncate_else p (p.size : Int) (by omega)]
    have hn : (if (p.size : Int) < 0 then 0 else (p.size : Int).toNat) = p.size := by
      rw [if_neg (by omega)]
      omega
    rw [hn]
    have hfile : (flush p).file = p.file ++ p.writeBuffer := by
      have h1 := flush_flat p
      rw [flush_wb_empty p hopen] at h1
      simpa using h1
    have hlen : (flush p).file.length = headerSize + p.size := by
      rw [hfile, List.length_append]
      omega
    rw [jsFileTruncate_exact (flush p).file (headerSize + p.size) hlen]
    rw [show p.size = (flush p).size from (flush_size p).symm]

/-- Witness for the amended C7: a no-op beyond the end, idempotence at a
negative offset, the negative-argument clamp, and the boundary flush, all on a
fresh partition. -/
theorem truncate_props_witness :
    truncate (freshOpen 16384 4096 0) 5 = freshOpen 16384 4096 0 ∧
    truncate (truncate (freshOpen 16384 4096 0) (-1)) (-1) =
      truncate (freshOpen 16384 4096 0) (-1) ∧
    (truncate (freshOpen 16384 4096 0) (-1)).size = 0 ∧
    (truncate (freshOpen 16384 4096 0) (-1)).file =
      jsFileTruncate (flush (freshOpen 16384 4096 0)).file headerSize ∧
    truncate (freshOpen 16384 4096 0) (((freshOpen 16384 4096 0).size : Int)) =
      flush (freshOpen 16384 4096 0) :=
  ⟨(truncate_props (freshOpen 16384 4096 0) 5).1 (by decide),
   (truncate_props (freshOpen 16384 4096 0) (-1)).2.1,
   ((truncate_props (freshOpen 16384 4096 0) (-1)).2.2.1 (by decide)).1,
   ((truncate_props (freshOpen 16384 4096 0) (-1)).2.2.1 (by decide)).2,
   (truncate_props (freshOpen 16384 4096 0)
     (((freshOpen 16384 4096 0).size : Int))).2.2.2 (by decide) (by decide) (by decide)⟩


/-- C4 (amended): on an open partition with intact size accounting, a
buffered `write(data)` — the frame fits the write buffer and the
document-count flush threshold is either disabled or not reached by this
write — of a document smaller than `10^9` bytes returns position `p = size`,
and `readFrom(p)` before any flush returns the document, served from the
write buffer: the state is completely unchanged by the read (no read-buffer
refill), the position lies in the write-buffer window
`[size - writeBufferCursor, size)`, and the on-disk body ends at or before
`p`, so the bytes cannot have come from disk.  The size bound is forced: a
legally buffered document of `10^9` bytes or more has a ten-digit length
field with no pad space, which `readFrom` rejects, so `readFrom(p)` throws
instead of returning the document (see the counterexample below). -/
theorem readFrom_serves_unflushed_write (p : Partition) (d : List Nat)
    (ho : p.isOpen = true)
    (hm : p.maxWriteBufferDocuments = 0 ∨
      p.writeBufferDocuments + 2 ≤ p.maxWriteBufferDocuments)
    (hh : headerSize ≤ p.file.length)
    (hinv : p.size = (p.file.length - headerSize) + p.writeBuffer.length)
    (hfit : d.length + 11 ≤ p.writeBufferSize)
    (h1 : 1 ≤ d.length) (h9 : d.length < 10 ^ 9) :
    (write p d).1 = .position p.size ∧
    readFrom (write p d).2 p.size none = (.ok (some d), (write p d).2) ∧
    (write p d).2.size - (write p d).2.writeBuffer.length ≤ p.size ∧
    (write p d).2.file.length - headerSize ≤ p.size := by
  have h10 : d.length < 10 ^ 10 := lt_trans h9 (by norm_num)
  have hflen := frameBytes_length d h10
  obtain ⟨hr, hcase⟩ := write_buffered_spec p d ho hm hfit
  rcases hcase with ⟨hq, hB⟩ | hq
  · have hread := readFrom_wb (write p d).2 p.writeBuffer d
      (by rw [hq]; exact ho)
      (by rw [hq])
      (by rw [hq]; exact hh)
      (by rw [hq]
          show p.size + (d.length + 11) =
            (p.file.length - headerSize) + (p.writeBuffer ++ frameBytes d).length
          rw [List.length_append, hflen]
          omega)
      (by rw [hq]; exact hB) h1 h9
    have hpos : (write p d).2.file.length - headerSize + p.writeBuffer.length =
        p.size := by
      rw [hq]
      show p.file.length - headerSize + p.writeBuffer.length = p.size
      omega
    rw [hpos] at hread
    refine ⟨hr, hread, ?_, ?_⟩
    · rw [hq]
      show p.size + (d.length + 11) - (p.writeBuffer ++ frameBytes d).length ≤ p.size
      rw [List.length_append, hflen]
      omega
    · rw [hq]
      show p.file.length - headerSize ≤ p.size
      omega
  · have hread := readFrom_wb (write p d).2 [] d
      (by rw [hq]; exact ho)
      (by rw [hq]
          show frameBytes d = [] ++ frameBytes d
          simp)
      (by rw [hq]
          show headerSize ≤ (p.file ++ p.writeBuffer).length
          rw [List.length_append]
          omega)
      (by rw [hq]
          show p.size + (d.length + 11) =
            ((p.file ++ p.writeBuffer).length - headerSize) + (frameBytes d).length
          rw [List.length_append, hflen]
          omega)
      (by rw [hq]
          show ([] : List Nat).length + (d.length + 11) ≤ p.writeBufferSize
          simpa using hfit) h1 h9
    simp only [List.length_nil, Nat.add_zero] at hread
    have hpos : (write p d).2.file.length - headerSize = p.size := by
      rw [hq]
      show (p.file ++ p.writeBuffer).length - headerSize = p.size
      rw [List.length_append]
      omega
    rw [hpos] at hread
    refine ⟨hr, hread, ?_, ?_⟩
    · rw [hq]
      show p.size + (d.length + 11) - (frameBytes d).length ≤ p.size
      rw [hflen]
      omega
    · rw [hq]
      show (p.file ++ p.writeBuffer).length - headerSize ≤ p.size
      rw [List.length_append]
      omega

/-- Witness for C4: writing a one-byte document to a fresh partition and
reading it back from the write buffer. -/
theorem readFrom_serves_unflushed_write_witness :
    (write (freshOpen 16384 4096 0) [97]).1 = .position (freshOpen 16384 4096 0).size ∧
    readFrom (write (freshOpen 16384 4096 0) [97]).2 (freshOpen 16384 4096 0).size
      none = (.ok (some [97]), (write (freshOpen 16384 4096 0) [97]).2) ∧
    (write (freshOpen 16384 4096 0) [97]).2.size -
      (write (freshOpen 16384 4096 0) [97]).2.writeBuffer.length ≤
      (freshOpen 16384 4096 0).size ∧
    (write (freshOpen 16384 4096 0) [97]).2.file.length - headerSize ≤
      (freshOpen 16384 4096 0).size :=
  readFrom_serves_unflushed_write (freshOpen 16384 4096 0) [97] (by decide) (by decide)
    (by decide) (by decide) (by decide) (by decide) (by decide)

/-- C10: on an open partition (size accounting intact, default flush policy),
`write('')` succeeds: it returns the current `size` and increments `size` by
eleven.  But the frame it writes carries the length field `0`, which fails the
`!dataLength` validation of `readFrom`, so reading the returned position
throws a plain document-size `Error`, and a `readAll()` iteration reaching
that position ends in that exception instead of yielding the document. -/
theorem empty_document_write_succeeds_but_read_throws (p : Partition)
    (ho : p.isOpen = true) (hm : p.maxWriteBufferDocuments = 0)
    (hh : headerSize ≤ p.file.length)
    (hinv : p.size = (p.file.length - headerSize) + p.writeBuffer.length)
    (hfit : 11 ≤ p.writeBufferSize) :
    (write p []).1 = .position p.size ∧
    (write p []).2.size = p.size + 11 ∧
    readFrom (write p []).2 p.size none =
      (.error .documentSizeError, (write p []).2) ∧
    (readAllAux (write p []).2 p.size).1 = .error .documentSizeError := by
  have hflen : (frameBytes ([] : List Nat)).length = 11 :=
    frameBytes_length [] (by norm_num)
  obtain ⟨hr, hcase⟩ := write_buffered_spec p [] ho (Or.inl hm) (by simpa using hfit)
  rcases hcase with ⟨hq, hB⟩ | hq
  · have herr := readFrom_wb_err (write p []).2 p.writeBuffer []
      (by rw [hq]; exact ho)
      (by rw [hq])
      (by rw [hq]; exact hh)
      (by rw [hq]
          show p.size + (List.length ([] : List Nat) + 11) =
            (p.file.length - headerSize) + (p.writeBuffer ++ frameBytes []).length
          rw [List.length_append, hflen]
          simp only [List.length_nil]
          omega)
      (by rw [hq]
          show p.writeBuffer.length + (List.length ([] : List Nat) + 11) ≤
            p.writeBufferSize
          simpa using hB)
      (by decide) (by norm_num)
    have hpos : (write p []).2.file.length - headerSize + p.writeBuffer.length =
        p.size := by
      rw [hq]
      show p.file.length - headerSize + p.writeBuffer.length = p.size
      omega
    rw [hpos] at herr
    exact ⟨hr, by rw [hq]; simp, herr,
      readAllAux_error _ p.size .documentSizeError _ herr⟩
  · have herr := readFrom_wb_err (write p []).2 [] []
      (by rw [hq]; exact ho)
      (by rw [hq]
          show frameBytes [] = [] ++ frameBytes []
          simp)
      (by rw [hq]
          show headerSize ≤ (p.file ++ p.writeBuffer).length
          rw [List.length_append]
          omega)
      (by rw [hq]
          show p.size + (List.length ([] : List Nat) + 11) =
            ((p.file ++ p.writeBuffer).length - headerSize) + (frameBytes []).length
          rw [List.length_append, hflen]
          simp only [List.length_nil]
          omega)
      (by rw [hq]
          show List.length ([] : List Nat) + (List.length ([] : List Nat) + 11) ≤
            p.writeBufferSize
          simpa using hfit)
      (by decide) (by norm_num)
    simp only [List.length_nil, Nat.add_zero] at herr
    have hpos : (write p []).2.file.length - headerSize = p.size := by
      rw [hq]
      show (p.file ++ p.writeBuffer).length - headerSize = p.size
      rw [List.length_append]
      omega
    rw [hpos] at herr
    exact ⟨hr, by rw [hq]; simp, herr,
      readAllAux_error _ p.size .documentSizeError _ herr⟩

/-- Witness for C10: writing the empty document to a fresh partition. -/
theorem empty_document_write_succeeds_but_read_throws_witness :
    (write (freshOpen 16384 4096 0) []).1 = .position (freshOpen 16384 4096 0).size ∧
    (write (freshOpen 16384 4096 0) []).2.size = (freshOpen 16384 4096 0).size + 11 ∧
    readFrom (write (freshOpen 16384 4096 0) []).2 (freshOpen 16384 4096 0).size
      none = (.error .documentSizeError, (write (freshOpen 16384 4096 0) []).2) ∧
    (readAllAux (write (freshOpen 16384 4096 0) []).2
      (freshOpen 16384 4096 0).size).1 = .error .documentSizeError :=
  empty_document_write_succeeds_but_read_throws (freshOpen 16384 4096 0) (by decide)
    (by decide) (by decide) (by decide) (by decide)


/-- C9: the read-only storage directory watcher emits nothing and creates no
partition when the event type is `change`, when the filename ends in
`.branch`, or when the filename does not start with the storage file name;
and for a matching filename ending in `.index` (on a non-`change` event that
is not a `.branch` sidecar) it emits exactly one `index-created` event and
never opens a partition. -/
theorem watcher_ignores_and_index_only_emits (idFor : List Char → Nat)
    (st : ROStorage) (eventType filename : List Char) :
    ((eventType = changeType ∨ branchSuffix <:+ filename ∨
        filename.take st.storageFile.length ≠ st.storageFile) →
      onDirectoryContentsChanged idFor st eventType filename = ([], st)) ∧
    ((eventType ≠ changeType ∧ ¬(branchSuffix <:+ filename) ∧
        filename.take st.storageFile.length = st.storageFile ∧
        indexSuffix <:+ filename) →
      onDirectoryContentsChanged idFor st eventType filename =
        ([.indexCreated filename], st)) := by
  constructor
  · intro h
    unfold onDirectoryContentsChanged
    by_cases h1 : eventType = changeType
    · rw [if_pos h1]
    · rw [if_neg h1]
      by_cases h2 : jsSubstrFromEnd filename 7 = branchSuffix
      · rw [if_pos h2]
      · rw [if_neg h2]
        have h3 : filename.take st.storageFile.length ≠ st.storageFile := by
          rcases h with h | h | h
          · exact absurd h h1
          · exact absurd ((jsSubstrFromEnd_eq_iff filename branchSuffix 7 rfl).mpr h) h2
          · exact h
        rw [if_pos h3]
  · rintro ⟨h1, h2, h3, h4⟩
    unfold onDirectoryContentsChanged
    rw [if_neg h1]
    rw [if_neg (fun hx => h2 ((jsSubstrFromEnd_eq_iff filename branchSuffix 7 rfl).mp hx))]
    rw [if_neg (fun hx => hx h3)]
    rw [if_pos ((jsSubstrFromEnd_eq_iff filename indexSuffix 6 rfl).mpr h4)]

/-- Witness for C9: on a storage named `st`, a rename event for a `.branch`
sidecar is ignored, and a rename event for `st.index` emits exactly the
`index-created` event. -/
theorem watcher_ignores_and_index_only_emits_witness :
    onDirectoryContentsChanged (fun _ => 7) ⟨['s', 't'], []⟩
      ['r', 'e', 'n', 'a', 'm', 'e'] ['s', 't', '.', 'b', 'r', 'a', 'n', 'c', 'h'] =
      ([], ⟨['s', 't'], []⟩) ∧
    onDirectoryContentsChanged (fun _ => 7) ⟨['s', 't'], []⟩
      ['r', 'e', 'n', 'a', 'm', 'e'] ['s', 't', '.', 'i', 'n', 'd', 'e', 'x'] =
      ([.indexCreated ['s', 't', '.', 'i', 'n', 'd', 'e', 'x']], ⟨['s', 't'], []⟩) :=
  ⟨(watcher_ignores_and_index_only_emits (fun _ => 7) ⟨['s', 't'], []⟩
      ['r', 'e', 'n', 'a', 'm', 'e'] ['s', 't', '.', 'b', 'r', 'a', 'n', 'c', 'h']).1
      (Or.inr (Or.inl (by decide))),
   (watcher_ignores_and_index_only_emits (fun _ => 7) ⟨['s', 't'], []⟩
      ['r', 'e', 'n', 'a', 'm', 'e'] ['s', 't', '.', 'i', 'n', 'd', 'e', 'x']).2
      ⟨by decide, by decide, by decide, by decide⟩⟩

/-- C1 (amended): writing any finite sequence of non-empty documents, each
smaller than `10^9` bytes, to a freshly opened partition, closing it and
reopening it makes `readAll()` yield exactly those documents, in order, each
exactly once, and nothing further — for every buffer configuration.  The size
bound is forced: `10^9` is the smallest byte length whose decimal
representation has ten digits, leaving the space-padded ten-byte length field
without the pad space that `readFrom`'s validation demands, so a document of
`10^9` bytes or more round-trips into a thrown error instead of a yield (see
the counterexample below); UTF-8 byte lengths between `10^9` and the string
size limit are reachable in the source's host language. -/
theorem write_close_open_readAll_roundtrip (wbSize rbSize maxDocs : Nat)
    (ds : List (List Nat))
    (hds : ∀ d ∈ ds, 1 ≤ d.length ∧ d.length < 10 ^ 9) :
    ∃ p', openP (closeP (writeMany (freshOpen wbSize rbSize maxDocs) ds)) = .ok p' ∧
      (readAll p').1 = .ok ds := by
  have hfo : (freshOpen wbSize rbSize maxDocs).isOpen = true := rfl
  have hfh : headerSize ≤ (freshOpen wbSize rbSize maxDocs).file.length := by
    show headerSize ≤ headerBytes.length
    decide
  obtain ⟨hw1, hw2⟩ := writeMany_inv ds (freshOpen wbSize rbSize maxDocs) hfo hfh
  obtain ⟨hc1, hc2, hc3, hc4, hc5, hc6, hc7⟩ :=
    closeP_spec (writeMany (freshOpen wbSize rbSize maxDocs) ds) hw2
  have hCfile : (closeP (writeMany (freshOpen wbSize rbSize maxDocs) ds)).file =
      headerBytes ++ framesBytes ds := by
    rw [hc1, hw1]
    show headerBytes ++ [] ++ framesBytes ds = headerBytes ++ framesBytes ds
    simp
  have hopen := openP_reopen (closeP (writeMany (freshOpen wbSize rbSize maxDocs) ds))
    (framesBytes ds) hc2 hCfile
  refine ⟨_, hopen, ?_⟩
  show (readAllAux _ 0).1 = .ok ds
  apply readAllAux_frames ds _ (framesBytes ds) 0 ?_ (by simp) hds
  refine ⟨rfl, rfl, hCfile, ?_, Or.inl rfl⟩
  show (closeP (writeMany (freshOpen wbSize rbSize maxDocs) ds)).file.length -
    headerSize = (framesBytes ds).length
  rw [hCfile, List.length_append]
  show headerBytes.length + (framesBytes ds).length - headerSize = (framesBytes ds).length
  have h9 : headerBytes.length = 9 := rfl
  have hS : headerSize = 9 := rfl
  omega

/-- Witness for C1: the two documents `a` and `bc` survive a
write-close-open-readAll round trip on a default-configured partition. -/
theorem write_close_open_readAll_roundtrip_witness :
    ∃ p', openP (closeP (writeMany (freshOpen 16384 4096 0) [[97], [98, 99]])) =
      .ok p' ∧ (readAll p').1 = .ok [[97], [98, 99]] :=
  write_close_open_readAll_roundtrip 16384 4096 0 [[97], [98, 99]] (by decide)

/-- Any document whose length field fails `readFrom`'s whitespace-prefixed
parse check turns the write-close-open-readAll round trip on a
default-configured fresh partition into a thrown document-size error: the
frame is written and survives close/open, but the first `readFrom` of the
`readAll` loop rejects its ten-byte length field. -/
lemma writeMany_roundtrip_unparsable (d : List Nat)
    (hparse : parseLenField (lenField d.length) = none)
    (h10 : d.length < 10 ^ 10) :
    ∃ p', openP (closeP (writeMany (freshOpen 16384 4096 0) [d])) = .ok p' ∧
      (readAll p').1 = .error .documentSizeError := by
  have hfo : (freshOpen 16384 4096 0).isOpen = true := rfl
  have hfh : headerSize ≤ (freshOpen 16384 4096 0).file.length := by
    show headerSize ≤ headerBytes.length
    decide
  obtain ⟨hw1, hw2⟩ := writeMany_inv [d] (freshOpen 16384 4096 0) hfo hfh
  obtain ⟨hc1, hc2, _, _, _, _, _⟩ :=
    closeP_spec (writeMany (freshOpen 16384 4096 0) [d]) hw2
  have hCfile : (closeP (writeMany (freshOpen 16384 4096 0) [d])).file =
      headerBytes ++ framesBytes [d] := by
    rw [hc1, hw1]
    show headerBytes ++ [] ++ framesBytes [d] = headerBytes ++ framesBytes [d]
    simp
  have hopen := openP_reopen (closeP (writeMany (freshOpen 16384 4096 0) [d]))
    (framesBytes [d]) hc2 hCfile
  refine ⟨_, hopen, ?_⟩
  show (readAllAux _ 0).1 = .error .documentSizeError
  have key : ∀ R : Partition, goodRead R (framesBytes [d]) →
      (readAllAux R 0).1 = .error .documentSizeError := by
    intro R hgr
    obtain ⟨p2, herr⟩ := readFrom_frame_err R (framesBytes [d]) d [] 0 hgr
      (by simp [framesBytes]) hparse h10
    exact readAllAux_error R 0 .documentSizeError p2 herr
  apply key
  refine ⟨rfl, rfl, hCfile, ?_, Or.inl rfl⟩
  show (closeP (writeMany (freshOpen 16384 4096 0) [d])).file.length -
    headerSize = (framesBytes [d]).length
  rw [hCfile, List.length_append]
  show headerBytes.length + (framesBytes [d]).length - headerSize =
    (framesBytes [d]).length
  have h9 : headerBytes.length = 9 := rfl
  have hS : headerSize = 9 := rfl
  omega

/-- A fresh partition with a legally configured write buffer large enough to
buffer a `10^9`-byte document. -/
def hugeBufferPartition : Partition := freshOpen (10 ^ 9 + 100) 4096 0

/-- On `hugeBufferPartition`, writing any document that fits the write buffer
but whose length field fails the parse check returns the pre-write position
and leaves the frame unflushed, yet `readFrom` at that position throws the
document-size error. -/
lemma write_readFrom_unparsable (d : List Nat)
    (hfit0 : d.length + 11 ≤ 10 ^ 9 + 100)
    (hparse : parseLenField (lenField d.length) = none)
    (h10 : d.length < 10 ^ 10) :
    (write hugeBufferPartition d).1 = .position hugeBufferPartition.size ∧
    0 < (write hugeBufferPartition d).2.writeBuffer.length ∧
    (readFrom (write hugeBufferPartition d).2 hugeBufferPartition.size
      none).1 = .error .documentSizeError := by
  have hflen := frameBytes_length d h10
  have ho : hugeBufferPartition.isOpen = true := rfl
  have hh : headerSize ≤ hugeBufferPartition.file.length := by decide
  have hs0 : hugeBufferPartition.size = 0 := rfl
  have hf9 : hugeBufferPartition.file.length = 9 := rfl
  have hw0 : hugeBufferPartition.writeBuffer.length = 0 := rfl
  have hwbs : hugeBufferPartition.writeBufferSize = 10 ^ 9 + 100 := rfl
  have hS : headerSize = 9 := rfl
  have hfit : d.length + 11 ≤ hugeBufferPartition.writeBufferSize := by
    rw [hwbs]
    exact hfit0
  obtain ⟨hr, hcase⟩ := write_buffered_spec hugeBufferPartition d ho
    (Or.inl rfl) hfit
  rcases hcase with ⟨hq, hB⟩ | hq
  · have herr := readFrom_wb_err (write hugeBufferPartition d).2
      hugeBufferPartition.writeBuffer d
      (by rw [hq]; exact ho)
      (by rw [hq])
      (by rw [hq]; exact hh)
      (by rw [hq]
          show hugeBufferPartition.size + (d.length + 11) =
            (hugeBufferPartition.file.length - headerSize) +
              (hugeBufferPartition.writeBuffer ++ frameBytes d).length
          rw [List.length_append, hflen]
          omega)
      (by rw [hq]
          show hugeBufferPartition.writeBuffer.length + (d.length + 11) ≤
            hugeBufferPartition.writeBufferSize
          omega)
      hparse h10
    have hpos : (write hugeBufferPartition d).2.file.length - headerSize +
        hugeBufferPartition.writeBuffer.length = hugeBufferPartition.size := by
      rw [hq]
      show hugeBufferPartition.file.length - headerSize +
        hugeBufferPartition.writeBuffer.length = hugeBufferPartition.size
      omega
    rw [hpos] at herr
    refine ⟨hr, ?_, by rw [herr]⟩
    rw [hq]
    show 0 < (hugeBufferPartition.writeBuffer ++ frameBytes d).length
    rw [List.length_append, hflen]
    omega
  · have herr := readFrom_wb_err (write hugeBufferPartition d).2 [] d
      (by rw [hq]; exact ho)
      (by rw [hq]
          show frameBytes d = [] ++ frameBytes d
          simp)
      (by rw [hq]
          show headerSize ≤
            (hugeBufferPartition.file ++ hugeBufferPartition.writeBuffer).length
          rw [List.length_append]
          omega)
      (by rw [hq]
          show hugeBufferPartition.size + (d.length + 11) =
            ((hugeBufferPartition.file ++ hugeBufferPartition.writeBuffer).length -
              headerSize) + (frameBytes d).length
          rw [List.length_append, hflen]
          omega)
      (by show (List.length ([] : List Nat)) + (d.length + 11) ≤
            (write hugeBufferPartition d).2.writeBufferSize
          rw [hq]
          show (List.length ([] : List Nat)) + (d.length + 11) ≤
            hugeBufferPartition.writeBufferSize
          simp only [List.length_nil, Nat.zero_add]
          omega)
      hparse h10
    simp only [List.length_nil, Nat.add_zero] at herr
    have hpos : (write hugeBufferPartition d).2.file.length - headerSize =
        hugeBufferPartition.size := by
      rw [hq]
      show (hugeBufferPartition.file ++ hugeBufferPartition.writeBuffer).length -
        headerSize = hugeBufferPartition.size
      rw [List.length_append]
      omega
    rw [hpos] at herr
    refine ⟨hr, ?_, by rw [herr]⟩
    rw [hq]
    show 0 < (frameBytes d).length
    rw [hflen]
    omega

/-- A document of exactly `10^9` bytes.  Its decimal length has ten digits,
so `pad` adds no space and the length field fails the whitespace-prefixed
digit check of `readFrom`.  UTF-8 byte lengths of this size are reachable for
host-language strings (multi-byte characters push `Buffer.byteLength` past
`10^9` well before the character-count limit). -/
def bigDoc : List Nat := List.replicate (10 ^ 9) 97

/-- Counterexample to C1 as stated: the single non-empty document of `10^9`
bytes does not survive the write-close-open-readAll round trip on a
default-configured fresh partition — `readAll` throws the document-size error
instead of yielding it, because the ten-digit length field has no pad space
and fails `readFrom`'s validation. -/
theorem huge_document_roundtrip_throws :
    bigDoc ≠ [] ∧
    ∃ p', openP (closeP (writeMany (freshOpen 16384 4096 0) [bigDoc])) = .ok p' ∧
      (readAll p').1 = .error .documentSizeError := by
  have hlen : bigDoc.length = 10 ^ 9 := List.length_replicate ..
  refine ⟨?_, writeMany_roundtrip_unparsable bigDoc (by rw [hlen]; decide)
    (by rw [hlen]; norm_num)⟩
  intro h
  rw [h] at hlen
  simp only [List.length_nil] at hlen
  omega

/-- Counterexample to C4 as stated: in a legally configured partition whose
write buffer holds more than `10^9 + 11` bytes, writing the `10^9`-byte
document returns the pre-write position and leaves the frame unflushed in the
write buffer, yet `readFrom` at that position throws the document-size error
instead of returning the document. -/
theorem huge_document_readFrom_throws :
    (write hugeBufferPartition bigDoc).1 = .position hugeBufferPartition.size ∧
    0 < (write hugeBufferPartition bigDoc).2.writeBuffer.length ∧
    (readFrom (write hugeBufferPartition bigDoc).2 hugeBufferPartition.size
      none).1 = .error .documentSizeError := by
  have hlen : bigDoc.length = 10 ^ 9 := List.length_replicate ..
  exact write_readFrom_unparsable bigDoc (by rw [hlen]; norm_num)
    (by rw [hlen]; decide) (by rw [hlen]; norm_num)

end NES
